import Mathlib

/-
Shallow embedding of the task scheduler of `src/os3/src/task.rs`.

Modelling conventions:
- Rust `usize`/`u32` counters are modelled as `Nat` (no claim depends on
  machine-width wraparound).
- The fixed-size arrays `tcbs`, `stats`, `syscall_times` are modelled as total
  maps `Nat → _`; the array-bounds panics that matter to a claim (the
  `syscall_times[syscall]` access in `TaskStat::record_syscall`, the
  slice/array accesses in `load_task`) are modelled explicitly as `Option`
  failures with the source's bound.
- `time::get_time()` reads a hardware clock; each operation that reads the
  clock takes the reading as an explicit `Nat` argument.
- A Rust panic (a failed `assert!`, an `expect` on `checked_sub`, a remainder
  by zero, an array-bounds fault) is modelled as `none` / a `fault` outcome.
- `sbi::shutdown()` (via `finish()`) and the context-switch primitive
  `__switch` never return; they are modelled as outcome constructors.
-/

set_option linter.unusedVariables false

namespace Os3

/-- Task lifecycle states, from `enum TaskStatus` in src/os3/src/task.rs. -/
inductive TaskStatus where
  | UnInit
  | Ready
  | Running
  | Exited
  deriving DecidableEq, Repr

/-- `MAX_TASK_NUM` from src/os3/src/task.rs. -/
def MAX_TASK_NUM : Nat := 32

/-- Saved kernel execution context, from `struct TaskContext` (ra, sp, s0-s11). -/
structure TaskContext where
  ra : Nat
  sp : Nat
  s0_11 : List Nat

/-- The Rust `Default` impl for `TaskContext`: all fields zero. -/
def TaskContext.default0 : TaskContext :=
  ⟨0, 0, List.replicate 12 0⟩

/-- Per-task statistics, from `struct TaskStat`.  `syscall_times` is a total
map; the tracked range bound `MAX_SYSCALL_NUM` (defined in the syscall module,
not part of the scheduler source) is passed as a parameter `msn` to the
operations that index the array. -/
structure TaskStat where
  cpu_clocks : Nat
  first_scheduled : Option Nat
  last_scheduled : Option Nat
  syscall_times : Nat → Nat

/-- The Rust `Default` impl for `TaskStat`: zero clocks, no timestamps,
all-zero syscall counters. -/
def TaskStat.default0 : TaskStat :=
  ⟨0, none, none, fun _ => 0⟩

/-- `TaskStat::record_schedule_begin`, with the `time::get_time()` reading
passed as `now`.  If no schedule window was ever opened, both timestamps are
set to `now`; otherwise only `last_scheduled` is updated. -/
def TaskStat.record_schedule_begin (st : TaskStat) (now : Nat) : TaskStat :=
  match st.last_scheduled with
  | none => { st with first_scheduled := some now, last_scheduled := some now }
  | some _ => { st with last_scheduled := some now }

/-- `TaskStat::record_schedule_end`.  `checked_sub(last).expect("time goes
backward")` panics when `now < last_scheduled`; the panic is the `none` case. -/
def TaskStat.record_schedule_end (st : TaskStat) (now : Nat) : Option TaskStat :=
  match st.last_scheduled with
  | some last =>
      if last ≤ now then
        some { st with cpu_clocks := st.cpu_clocks + (now - last) }
      else
        none
  | none => some st

/-- `TaskStat::record_syscall`: `self.syscall_times[syscall] += 1`.  The
array access faults (panics) when `syscall` is not below the array length
`MAX_SYSCALL_NUM`, here the parameter `msn`. -/
def TaskStat.record_syscall (msn : Nat) (st : TaskStat) (syscall : Nat) :
    Option TaskStat :=
  if syscall < msn then
    some { st with
      syscall_times := fun j =>
        if j = syscall then st.syscall_times syscall + 1 else st.syscall_times j }
  else
    none

/-- Task control block, from `struct TaskControlBlock`. -/
structure TaskControlBlock where
  status : TaskStatus
  cx : TaskContext

/-- The `TaskManager` state, from `struct TaskManager`.  `app_starts` is the
read-only image table (a total map standing for the `num_app + 1`-entry
slice). -/
structure TaskManager where
  app_starts : Nat → Nat
  num_app : Nat
  current_task : Nat
  tcbs : Nat → TaskControlBlock
  stats : Nat → TaskStat

/-- Pointwise update of a total map, standing for an array-element write. -/
def updF {α : Type} (f : Nat → α) (i : Nat) (v : α) : Nat → α :=
  fun j => if j = i then v else f j

/-- Write `tm.tcbs[i].status = s`. -/
def TaskManager.setStatus (tm : TaskManager) (i : Nat) (s : TaskStatus) :
    TaskManager :=
  { tm with tcbs := updF tm.tcbs i { tm.tcbs i with status := s } }

/-- `TaskManager::move_to_next_task`, with the two `time::get_time()` readings
(one inside `record_schedule_end`, one inside `record_schedule_begin`) passed
as `tEnd` and `tBegin`.  Returns the updated manager together with the indices
of the two tasks whose saved contexts (`&mut tcbs[..].cx`) are returned to the
caller; `none` is a panic (the failed `assert!(next_tcb.status == Ready)` or
the `expect` inside `record_schedule_end`).  The source demotes the current
task and closes its stats window BEFORE asserting that `next_task` is Ready,
so `next_task == current_task` with the current task Running passes the
assertion. -/
def TaskManager.move_to_next_task (tm : TaskManager) (next_task : Nat)
    (tEnd tBegin : Nat) : Option (TaskManager × Nat × Nat) :=
  let current_task := tm.current_task
  let tm1 :=
    if (tm.tcbs current_task).status = .Running then
      tm.setStatus current_task .Ready
    else tm
  match (tm1.stats current_task).record_schedule_end tEnd with
  | none => none
  | some stEnd =>
    let tm2 := { tm1 with stats := updF tm1.stats current_task stEnd }
    if (tm2.tcbs next_task).status = .Ready then
      let tm3 := tm2.setStatus next_task .Running
      let tm4 := { tm3 with
        stats := updF tm3.stats next_task
          ((tm3.stats next_task).record_schedule_begin tBegin) }
      some ({ tm4 with current_task := next_task }, current_task, next_task)
    else
      none

/-- The scan loop of `TaskManager::find_next_task`: starting at `idx`, up to
`fuel` probes, each followed by `idx = (idx + 1) % n`. -/
def findReadyLoop (tcbs : Nat → TaskControlBlock) (n : Nat) :
    Nat → Nat → Option Nat
  | _, 0 => none
  | idx, fuel + 1 =>
      if (tcbs idx).status = .Ready then some idx
      else findReadyLoop tcbs n ((idx + 1) % n) fuel

/-- `TaskManager::find_next_task`.  The outer `none` is the panic of
`(self.current_task + 1) % self.num_app` when `num_app == 0` (remainder by
zero); otherwise `some r` where `r` is the Rust `Option<usize>` result. -/
def TaskManager.find_next_task (tm : TaskManager) : Option (Option Nat) :=
  if tm.num_app = 0 then none
  else
    some
      (match findReadyLoop tm.tcbs tm.num_app
          ((tm.current_task + 1) % tm.num_app) tm.num_app with
      | some idx => some idx
      | none =>
          if (tm.tcbs tm.current_task).status = .Running then
            some tm.current_task
          else none)

/-- Outcome of `TaskManager::find_next_task_or_exit`: a task index, the
`finish()` path (print the completion message and `sbi::shutdown()`, which
never returns), or a panic propagated from `find_next_task`. -/
inductive FindOrExit where
  | task (i : Nat)
  | poweroff
  | fault
  deriving DecidableEq, Repr

/-- `TaskManager::find_next_task_or_exit`:
`self.find_next_task().unwrap_or_else(|| finish())`. -/
def TaskManager.find_next_task_or_exit (tm : TaskManager) : FindOrExit :=
  match tm.find_next_task with
  | none => .fault
  | some none => .poweroff
  | some (some i) => .task i

/-- `TaskManager::load_task`.  The image copy into the fixed physical region
is outside the modelled state; the slice accesses `app_starts[task_id]`,
`app_starts[task_id + 1]` (slice length `num_app + 1`) and the array access
`tcbs[task_id]` (length `MAX_TASK_NUM`) panic out of bounds, modelled as
`none`.  On success the slot's status is set Ready. -/
def TaskManager.load_task (tm : TaskManager) (task_id : Nat) :
    Option TaskManager :=
  if task_id + 1 < tm.num_app + 1 ∧ task_id < MAX_TASK_NUM then
    some (tm.setStatus task_id .Ready)
  else
    none

/-- `TaskManager::new`, parametrised by the link-time inputs: the embedded
image count `num_app`, the image table `app_starts`, the per-slot kernel stack
tops `kstack_sp`, and the address of `start_task`.  The first
`min num_app MAX_TASK_NUM` contexts are primed (`iter_mut().take(num_app)`),
then `load_task` runs for each `i < num_app`; `none` is a boot-time panic
(out-of-range slot, i.e. `num_app > MAX_TASK_NUM`). -/
def TaskManager.new (num_app : Nat) (app_starts : Nat → Nat)
    (kstack_sp : Nat → Nat) (start_task_addr : Nat) : Option TaskManager :=
  let tcbs : Nat → TaskControlBlock := fun i =>
    if i < min num_app MAX_TASK_NUM then
      { status := .UnInit,
        cx := { ra := start_task_addr, sp := kstack_sp i,
                s0_11 := List.replicate 12 0 } }
    else
      { status := .UnInit, cx := TaskContext.default0 }
  let init : TaskManager :=
    { app_starts, num_app, current_task := 0, tcbs,
      stats := fun _ => TaskStat.default0 }
  (List.range num_app).foldlM TaskManager.load_task init

/-- Outcome of a top-level scheduling entry point: `switched tm c n` means the
manager state is `tm` and `__switch(&mut tcbs[c].cx, &mut tcbs[n].cx)` was
invoked; `firstSwitch tm n` means `__switch` was invoked from a throwaway
default `TaskContext` into `tcbs[n].cx` (the `run_first_task` path, which
never returns); `poweroff` is the `finish()` path; `fault` is a panic. -/
inductive SwitchResult where
  | switched (tm : TaskManager) (current_cx next_cx : Nat)
  | firstSwitch (tm : TaskManager) (next_cx : Nat)
  | poweroff
  | fault

/-- `run_next_task`: pick the next task (or power off), move to it, program
the next timer interrupt (`set_next_trigger`, no effect on the modelled
state), and switch. -/
def run_next_task (tm : TaskManager) (tEnd tBegin : Nat) : SwitchResult :=
  match tm.find_next_task_or_exit with
  | .fault => .fault
  | .poweroff => .poweroff
  | .task next_task =>
    match tm.move_to_next_task next_task tEnd tBegin with
    | some (tm', c, n) => .switched tm' c n
    | none => .fault

/-- `exit_and_run_next`: mark the current task Exited, then `run_next_task`. -/
def exit_and_run_next (tm : TaskManager) (tEnd tBegin : Nat) : SwitchResult :=
  run_next_task (tm.setStatus tm.current_task .Exited) tEnd tBegin

/-- `run_first_task`: `first_task = if num_app > 0 { 0 } else { finish() }`,
then `move_to_next_task(first_task)`, `set_next_trigger()`, and
`__switch(&mut unused, first_task_cx)` from a throwaway default context. -/
def run_first_task (tm : TaskManager) (tEnd tBegin : Nat) : SwitchResult :=
  if 0 < tm.num_app then
    match tm.move_to_next_task 0 tEnd tBegin with
    | some (tm', _, n) => .firstSwitch tm' n
    | none => .fault
  else
    .poweroff

/-- The module-level `record_syscall`: increment the current task's counter
for `syscall` (faulting, as `none`, when `syscall` is out of the tracked
range `msn`). -/
def record_syscall (msn : Nat) (tm : TaskManager) (syscall : Nat) :
    Option TaskManager :=
  let curent_task := tm.current_task
  match (tm.stats curent_task).record_syscall msn syscall with
  | some st => some { tm with stats := updF tm.stats curent_task st }
  | none => none

/-- `k` successive invocations of the module-level `record_syscall` with the
same syscall number. -/
def recordSyscallN (msn : Nat) (tm : TaskManager) (syscall : Nat) :
    Nat → Option TaskManager
  | 0 => some tm
  | k + 1 =>
    match record_syscall msn tm syscall with
    | some tm' => recordSyscallN msn tm' syscall k
    | none => none

/-- Concrete manager states for evaluation: statuses from a list (UnInit
beyond it), default contexts and stats. -/
def mkTM (n cur : Nat) (sts : List TaskStatus) : TaskManager :=
  { app_starts := fun _ => 0, num_app := n, current_task := cur,
    tcbs := fun i => { status := sts.getD i .UnInit, cx := TaskContext.default0 },
    stats := fun _ => TaskStat.default0 }

/-- The cyclic scan order described by the spec: indices
`(current_task + 1) % num_app, (current_task + 2) % num_app, ...` for one
full cycle.  Spec-side definition, used to state the refinement claim about
`find_next_task`. -/
def scanOrderSpec (tm : TaskManager) : List Nat :=
  (List.range tm.num_app).map (fun k => (tm.current_task + 1 + k) % tm.num_app)

/-- Counterexample to C6 as stated: with the single task 0 current and
Running (the live single-task round-robin case), `move_to_next_task(0)` is
called on a `next_task` that is NOT Ready, yet it succeeds rather than
failing the assertion, because the source demotes the current task to Ready
before the `assert!`. -/
def tmC6 : TaskManager := mkTM 1 0 [.Running]

/-- The successor manager state computed by a successful
`move_to_next_task` (the value the source stores before returning the two
context pointers), written as an explicit function of the inputs. -/
def moveResult (tm : TaskManager) (next_task tBegin : Nat) (stEnd : TaskStat) :
    TaskManager :=
  let current_task := tm.current_task
  let tm1 :=
    if (tm.tcbs current_task).status = .Running then
      tm.setStatus current_task .Ready
    else tm
  let tm2 := { tm1 with stats := updF tm1.stats current_task stEnd }
  let tm3 := tm2.setStatus next_task .Running
  { tm3 with
    stats := updF tm3.stats next_task
      ((tm3.stats next_task).record_schedule_begin tBegin),
    current_task := next_task }

/-- An operation on a task's `TaskStat` together with the clock reading the
operation observes: opening a schedule window (`record_schedule_begin`) or
closing it (`record_schedule_end`). -/
inductive StatOp where
  | beginOp (t : Nat)
  | endOp (t : Nat)
  deriving DecidableEq, Repr

/-- The clock reading observed by a stat operation. -/
def StatOp.time : StatOp → Nat
  | .beginOp t => t
  | .endOp t => t

/-- Apply one stat operation (`none` is the time-goes-backward panic of
`record_schedule_end`). -/
def applyStatOp (st : TaskStat) : StatOp → Option TaskStat
  | .beginOp t => some (st.record_schedule_begin t)
  | .endOp t => st.record_schedule_end t

/-- Run a sequence of stat operations. -/
def runStatOps : TaskStat → List StatOp → Option TaskStat
  | st, [] => some st
  | st, op :: ops =>
    match applyStatOp st op with
    | some st1 => runStatOps st1 ops
    | none => none

/-- The platform clock is non-decreasing along the trace: each operation's
reading is no earlier than `t`, and the readings are ordered. -/
def TimesMono : Nat → List StatOp → Prop
  | _, [] => True
  | t, op :: ops => t ≤ op.time ∧ TimesMono op.time ops

/-- Well-formedness of a stat record relative to the clock `t`: recorded
timestamps are not in the future and `first_scheduled ≤ last_scheduled`
whenever both are set. -/
def StatWF (st : TaskStat) (t : Nat) : Prop :=
  (∀ l, st.last_scheduled = some l → l ≤ t) ∧
  (∀ f l, st.first_scheduled = some f → st.last_scheduled = some l → f ≤ l) ∧
  (∀ f, st.first_scheduled = some f → f ≤ t)

/-- The stat record produced by opening a window at 3 and closing it at 5,
starting from the default record. -/
def stC7 : TaskStat := ⟨2, some 3, some 3, fun _ => 0⟩

/-- One public mutating operation of the task module, as a step relation on
manager states (each constructor quantifies over the clock readings and
arguments of the call; only completing, non-panicking calls step). -/
inductive Step : TaskManager → TaskManager → Prop where
  | move (tm tm' : TaskManager) (next_task tEnd tBegin c n : Nat) :
      tm.move_to_next_task next_task tEnd tBegin = some (tm', c, n) →
      Step tm tm'
  | syscall (tm tm' : TaskManager) (msn s : Nat) :
      record_syscall msn tm s = some tm' → Step tm tm'
  | exit (tm tm' : TaskManager) (tEnd tBegin c n : Nat) :
      exit_and_run_next tm tEnd tBegin = .switched tm' c n → Step tm tm'
  | load (tm tm' : TaskManager) (task_id : Nat) :
      tm.load_task task_id = some tm' → Step tm tm'
  | runNext (tm tm' : TaskManager) (tEnd tBegin c n : Nat) :
      run_next_task tm tEnd tBegin = .switched tm' c n → Step tm tm'
  | runFirst (tm tm' : TaskManager) (tEnd tBegin n : Nat) :
      run_first_task tm tEnd tBegin = .firstSwitch tm' n → Step tm tm'

/-- A manager state reachable from some boot state (`TaskManager::new` on
some link-time inputs) by the public operations. -/
def Reachable (tm : TaskManager) : Prop :=
  ∃ num_app app_starts kstack_sp start_task_addr tm0,
    TaskManager.new num_app app_starts kstack_sp start_task_addr = some tm0 ∧
    Relation.ReflTransGen Step tm0 tm

/-- The inductive invariant: any Running slot is the current slot. -/
def RunningIsCurrent (tm : TaskManager) : Prop :=
  ∀ i, (tm.tcbs i).status = .Running → i = tm.current_task

/-- Counterexample state for C9: two tasks, a Ready task exists (task 1),
but task 0 — the slot `run_first_task` unconditionally switches to — is
Exited. -/
def tmC9 : TaskManager := mkTM 2 0 [.Exited, .Ready]

/-- If no slot below `n` is Ready, the scan loop finds nothing. -/
lemma findReadyLoop_eq_none (tcbs : Nat → TaskControlBlock) (n : Nat)
    (hAll : ∀ i, i < n → (tcbs i).status ≠ .Ready) :
    ∀ fuel idx, idx < n → findReadyLoop tcbs n idx fuel = none := by
  intro fuel
  induction fuel with
  | zero => intro idx _; rfl
  | succ fuel ih =>
      intro idx h
      have hn : 0 < n := Nat.lt_of_le_of_lt (Nat.zero_le _) h
      simp only [findReadyLoop, hAll idx h, if_false]
      exact ih _ (Nat.mod_lt _ hn)

/-- The scan loop only ever returns a Ready slot. -/
lemma findReadyLoop_some_ready (tcbs : Nat → TaskControlBlock) (n : Nat) :
    ∀ fuel idx j, findReadyLoop tcbs n idx fuel = some j →
      (tcbs j).status = .Ready := by
  intro fuel
  induction fuel with
  | zero => intro idx j h; exact absurd h (by simp [findReadyLoop])
  | succ fuel ih =>
      intro idx j h
      by_cases hr : (tcbs idx).status = .Ready
      · simp only [findReadyLoop, hr, if_true, Option.some.injEq] at h
        exact h ▸ hr
      · simp only [findReadyLoop, hr, if_false] at h
        exact ih _ _ h

/-- The scan loop equals a first-match search over the cyclic index list
starting at `idx`. -/
lemma findReadyLoop_eq_find (tcbs : Nat → TaskControlBlock) (n : Nat) :
    ∀ fuel idx, idx < n →
      findReadyLoop tcbs n idx fuel =
        ((List.range fuel).map (fun k => (idx + k) % n)).find?
          (fun i => decide ((tcbs i).status = .Ready)) := by
  intro fuel
  induction fuel with
  | zero => intro idx _; rfl
  | succ fuel ih =>
      intro idx h
      have hn : 0 < n := Nat.lt_of_le_of_lt (Nat.zero_le _) h
      rw [List.range_succ_eq_map, List.map_cons, List.map_map]
      by_cases hr : (tcbs idx).status = .Ready
      · rw [List.find?_cons_of_pos _ (by simp [Nat.mod_eq_of_lt h, hr])]
        simp [findReadyLoop, hr, Nat.mod_eq_of_lt h]
      · rw [List.find?_cons_of_neg _ (by simp [Nat.mod_eq_of_lt h, hr])]
        simp only [findReadyLoop, hr, if_false]
        rw [ih ((idx + 1) % n) (Nat.mod_lt _ hn)]
        congr 1
        congr 1
        funext k
        rw [Nat.mod_add_mod]
        show (idx + 1 + k) % n = (idx + Nat.succ k) % n
        congr 1
        omega

/-- C1: with `num_app > 0`, `find_next_task` returns the first Ready index
of the cyclic scan order starting just past the current task (one full
cycle); if none is Ready it returns the current task exactly when the
current task is Running, and `None` otherwise. -/
theorem find_next_task_scan_order (tm : TaskManager) (h0 : 0 < tm.num_app) :
    tm.find_next_task =
      some
        (match (scanOrderSpec tm).find?
            (fun i => decide ((tm.tcbs i).status = .Ready)) with
        | some j => some j
        | none =>
            if (tm.tcbs tm.current_task).status = .Running then
              some tm.current_task
            else none) := by
  have hne : tm.num_app ≠ 0 := Nat.pos_iff_ne_zero.mp h0
  have hlt : (tm.current_task + 1) % tm.num_app < tm.num_app :=
    Nat.mod_lt _ h0
  have hloop := findReadyLoop_eq_find tm.tcbs tm.num_app tm.num_app
    ((tm.current_task + 1) % tm.num_app) hlt
  have hmap : (List.range tm.num_app).map
      (fun k => ((tm.current_task + 1) % tm.num_app + k) % tm.num_app) =
        scanOrderSpec tm := by
    unfold scanOrderSpec
    congr 1
    funext k
    rw [Nat.mod_add_mod]
  rw [hmap] at hloop
  simp only [TaskManager.find_next_task]
  rw [if_neg hne, hloop]

/-- Witness for C1 on a concrete three-task state. -/
theorem find_next_task_scan_order_witness :
    (mkTM 3 0 [.Running, .Ready, .Ready]).find_next_task =
      some
        (match (scanOrderSpec (mkTM 3 0 [.Running, .Ready, .Ready])).find?
            (fun i =>
              decide (((mkTM 3 0 [.Running, .Ready, .Ready]).tcbs i).status
                = .Ready)) with
        | some j => some j
        | none =>
            if ((mkTM 3 0 [.Running, .Ready, .Ready]).tcbs
                (mkTM 3 0 [.Running, .Ready, .Ready]).current_task).status
                  = .Running then
              some (mkTM 3 0 [.Running, .Ready, .Ready]).current_task
            else none) :=
  find_next_task_scan_order (mkTM 3 0 [.Running, .Ready, .Ready]) (by decide)

/-- C10: with `num_app == 0`, `find_next_task` computes
`(current_task + 1) % 0`, a remainder by zero, and panics instead of
returning `None`. -/
theorem find_next_task_zero_apps_panics (tm : TaskManager)
    (h : tm.num_app = 0) : tm.find_next_task = none := by
  simp [TaskManager.find_next_task, h]

/-- Witness for C10 at a concrete empty manager. -/
theorem find_next_task_zero_apps_panics_witness :
    (mkTM 0 0 []).num_app = 0 ∧ (mkTM 0 0 []).find_next_task = none :=
  ⟨rfl, find_next_task_zero_apps_panics (mkTM 0 0 []) rfl⟩

/-- C6 counterexample: `next_task = 0` is not Ready (it is Running), yet
`move_to_next_task 0` succeeds. -/
theorem move_to_next_task_not_ready_can_succeed :
    (tmC6.tcbs 0).status ≠ .Ready ∧
    (tmC6.move_to_next_task 0 0 0).isSome = true := by
  decide

/-- C6 amended: `move_to_next_task(next)` with `next` not Ready fails the
assertion (returns no state) unless `next` is the current task and currently
Running (in which case the prior demotion makes the assertion pass); and
`record_syscall` with a syscall number at or above the tracked bound faults
on the array bounds check, both for the per-task stat operation and for the
module-level entry point; in no case does the operation silently proceed. -/
theorem invariant_violations_abort (tm : TaskManager)
    (next_task tEnd tBegin msn s : Nat) (st : TaskStat)
    (h1 : (tm.tcbs next_task).status ≠ .Ready)
    (h2 : ¬(next_task = tm.current_task ∧
            (tm.tcbs tm.current_task).status = .Running))
    (h3 : msn ≤ s) :
    tm.move_to_next_task next_task tEnd tBegin = none ∧
    TaskStat.record_syscall msn st s = none ∧
    record_syscall msn tm s = none := by
  have hns : ((if (tm.tcbs tm.current_task).status = .Running then
      tm.setStatus tm.current_task .Ready else tm).tcbs next_task).status
        ≠ .Ready := by
    by_cases hc : (tm.tcbs tm.current_task).status = .Running
    · have hne : next_task ≠ tm.current_task := fun he => h2 ⟨he, hc⟩
      simpa [hc, TaskManager.setStatus, updF, hne] using h1
    · simpa [hc] using h1
  have hsy : TaskStat.record_syscall msn st s = none := by
    simp [TaskStat.record_syscall, Nat.not_lt.mpr h3]
  refine ⟨?_, hsy, ?_⟩
  · simp only [TaskManager.move_to_next_task]
    cases hE : ((if (tm.tcbs tm.current_task).status = .Running then
        tm.setStatus tm.current_task .Ready else tm).stats
          tm.current_task).record_schedule_end tEnd with
    | none => simp [hE]
    | some stE => simp [hE, hns]
  · simp [record_syscall, TaskStat.record_syscall, Nat.not_lt.mpr h3]

/-- Witness for the amended C6 on a concrete state: task 1 is Exited and is
not the current task, so switching to it aborts; syscall number 5 is out of a
tracked range of 5. -/
theorem invariant_violations_abort_witness :
    (mkTM 2 0 [.Running, .Exited]).move_to_next_task 1 0 0 = none ∧
    TaskStat.record_syscall 5 TaskStat.default0 5 = none ∧
    record_syscall 5 (mkTM 2 0 [.Running, .Exited]) 5 = none :=
  invariant_violations_abort (mkTM 2 0 [.Running, .Exited]) 1 0 0 5 5
    TaskStat.default0 (by decide) (by decide) (by decide)

/-- C5: when no used slot is Ready and the current task is not Running (for
example when all tasks are Exited), `find_next_task` returns `None` and
`find_next_task_or_exit` takes the `finish()` path: it reports completion and
powers off instead of returning an index. -/
theorem all_done_powers_off (tm : TaskManager) (h0 : 0 < tm.num_app)
    (hnr : ∀ i, i < tm.num_app → (tm.tcbs i).status ≠ .Ready)
    (hcur : (tm.tcbs tm.current_task).status ≠ .Running) :
    tm.find_next_task = some none ∧
    tm.find_next_task_or_exit = .poweroff := by
  have hloop := findReadyLoop_eq_none tm.tcbs tm.num_app hnr tm.num_app
    ((tm.current_task + 1) % tm.num_app) (Nat.mod_lt _ h0)
  have h1 : tm.find_next_task = some none := by
    simp [TaskManager.find_next_task, Nat.pos_iff_ne_zero.mp h0, hloop, hcur]
  exact ⟨h1, by simp [TaskManager.find_next_task_or_exit, h1]⟩

/-- Witness for C5: two tasks, both Exited. -/
theorem all_done_powers_off_witness :
    (mkTM 2 0 [.Exited, .Exited]).find_next_task = some none ∧
    (mkTM 2 0 [.Exited, .Exited]).find_next_task_or_exit = .poweroff :=
  all_done_powers_off (mkTM 2 0 [.Exited, .Exited]) (by decide) (by decide)
    (by decide)

/-- Demoting the current task does not change its stats. -/
lemma demote_stats (tm : TaskManager) :
    (if (tm.tcbs tm.current_task).status = .Running then
      tm.setStatus tm.current_task .Ready
    else tm).stats = tm.stats := by
  by_cases hc : (tm.tcbs tm.current_task).status = .Running <;>
    simp [hc, TaskManager.setStatus]

/-- Evaluation of `move_to_next_task` when the schedule-window close succeeds
and the post-demotion status of `next_task` is Ready. -/
lemma move_to_next_task_eq_of (tm : TaskManager) (next_task tEnd tBegin : Nat)
    (stEnd : TaskStat)
    (hse : (tm.stats tm.current_task).record_schedule_end tEnd = some stEnd)
    (hnr : ((if (tm.tcbs tm.current_task).status = .Running then
        tm.setStatus tm.current_task .Ready
      else tm).tcbs next_task).status = .Ready) :
    tm.move_to_next_task next_task tEnd tBegin =
      some (moveResult tm next_task tBegin stEnd, tm.current_task, next_task) := by
  simp only [TaskManager.move_to_next_task, moveResult, demote_stats, hse,
    hnr, if_true]

/-- After the demotion step, a slot that was Ready is still Ready. -/
lemma demote_keeps_ready (tm : TaskManager) (next_task : Nat)
    (hready : (tm.tcbs next_task).status = .Ready) :
    ((if (tm.tcbs tm.current_task).status = .Running then
        tm.setStatus tm.current_task .Ready
      else tm).tcbs next_task).status = .Ready := by
  by_cases hc : (tm.tcbs tm.current_task).status = .Running
  · by_cases he : next_task = tm.current_task <;>
      simp [hc, TaskManager.setStatus, updF, he, hready]
  · simp [hc, hready]

/-- `record_schedule_begin` always stamps `last_scheduled` with the reading. -/
lemma record_schedule_begin_last (st : TaskStat) (now : Nat) :
    (st.record_schedule_begin now).last_scheduled = some now := by
  cases h : st.last_scheduled <;> simp [TaskStat.record_schedule_begin, h]

/-- With a clock reading no earlier than the open window,
`record_schedule_end` succeeds. -/
lemma record_schedule_end_isSome (st : TaskStat) (tEnd : Nat)
    (hclock : ∀ l, st.last_scheduled = some l → l ≤ tEnd) :
    ∃ s, st.record_schedule_end tEnd = some s := by
  unfold TaskStat.record_schedule_end
  cases hl : st.last_scheduled with
  | none => exact ⟨_, rfl⟩
  | some l => exact ⟨_, by simp only [if_pos (hclock l hl)]; rfl⟩

/-- Full functional description of a successful `move_to_next_task` from a
Ready target (shared helper). -/
lemma move_spec_aux (tm : TaskManager) (next_task tEnd tBegin : Nat)
    (hready : (tm.tcbs next_task).status = .Ready)
    (hclock : ∀ l, (tm.stats tm.current_task).last_scheduled = some l →
      l ≤ tEnd) :
    ∃ tm' stEnd,
      (tm.stats tm.current_task).record_schedule_end tEnd = some stEnd ∧
      tm.move_to_next_task next_task tEnd tBegin =
        some (tm', tm.current_task, next_task) ∧
      tm'.current_task = next_task ∧
      (tm'.tcbs next_task).status = .Running ∧
      (tm'.stats next_task).last_scheduled = some tBegin ∧
      (tm.current_task ≠ next_task →
        (tm'.tcbs tm.current_task).status =
          (if (tm.tcbs tm.current_task).status = .Running then .Ready
           else (tm.tcbs tm.current_task).status)) ∧
      (tm.current_task ≠ next_task → tm'.stats tm.current_task = stEnd) ∧
      (tm.current_task = next_task →
        tm'.stats next_task = stEnd.record_schedule_begin tBegin) ∧
      (∀ j, j ≠ next_task → j ≠ tm.current_task →
        tm'.tcbs j = tm.tcbs j ∧ tm'.stats j = tm.stats j) := by
  obtain ⟨stEnd, hse⟩ := record_schedule_end_isSome _ tEnd hclock
  refine ⟨moveResult tm next_task tBegin stEnd, stEnd, hse,
    move_to_next_task_eq_of tm next_task tEnd tBegin stEnd hse
      (demote_keeps_ready tm next_task hready), rfl, ?_, ?_, ?_, ?_, ?_, ?_⟩
  · simp [moveResult, TaskManager.setStatus, updF]
  · simp [moveResult, TaskManager.setStatus, updF, record_schedule_begin_last]
  · intro hne
    have hne' : next_task ≠ tm.current_task := fun h => hne h.symm
    by_cases hc : (tm.tcbs tm.current_task).status = .Running <;>
      simp [moveResult, TaskManager.setStatus, updF, hc, hne, hne']
  · intro hne
    have hne' : next_task ≠ tm.current_task := fun h => hne h.symm
    by_cases hc : (tm.tcbs tm.current_task).status = .Running <;>
      simp [moveResult, TaskManager.setStatus, updF, hc, hne, hne']
  · intro he
    by_cases hc : (tm.tcbs tm.current_task).status = .Running <;>
      simp [moveResult, TaskManager.setStatus, updF, hc, he]
  · intro j hj1 hj2
    constructor <;>
      by_cases hc : (tm.tcbs tm.current_task).status = .Running <;>
        simp [moveResult, TaskManager.setStatus, updF, hc, hj1, hj2]

/-- C2: when `next_task` is Ready (and the clock has not gone backwards
relative to the current task's open window), `move_to_next_task` succeeds and
returns the context locations of the old current task and of `next_task`; it
closes the current task's stats window, demotes the current task from
Running to Ready only if it was Running (leaving any other status, such as
Exited, unchanged), marks `next_task` Running, opens `next_task`'s stats
window, sets `current_task` to `next_task`, and touches no other slot. -/
theorem move_to_next_task_spec (tm : TaskManager) (next_task tEnd tBegin : Nat)
    (hready : (tm.tcbs next_task).status = .Ready)
    (hclock : ∀ l, (tm.stats tm.current_task).last_scheduled = some l →
      l ≤ tEnd) :
    ∃ tm' stEnd,
      (tm.stats tm.current_task).record_schedule_end tEnd = some stEnd ∧
      tm.move_to_next_task next_task tEnd tBegin =
        some (tm', tm.current_task, next_task) ∧
      tm'.current_task = next_task ∧
      (tm'.tcbs next_task).status = .Running ∧
      (tm'.stats next_task).last_scheduled = some tBegin ∧
      (tm.current_task ≠ next_task →
        (tm'.tcbs tm.current_task).status =
          (if (tm.tcbs tm.current_task).status = .Running then .Ready
           else (tm.tcbs tm.current_task).status)) ∧
      (tm.current_task ≠ next_task → tm'.stats tm.current_task = stEnd) ∧
      (tm.current_task = next_task →
        tm'.stats next_task = stEnd.record_schedule_begin tBegin) ∧
      (∀ j, j ≠ next_task → j ≠ tm.current_task →
        tm'.tcbs j = tm.tcbs j ∧ tm'.stats j = tm.stats j) :=
  move_spec_aux tm next_task tEnd tBegin hready hclock

/-- Witness for C2: three tasks, current 0 Running, switch to Ready task 2. -/
theorem move_to_next_task_spec_witness :
    ∃ tm' stEnd,
      ((mkTM 3 0 [.Running, .Exited, .Ready]).stats
        (mkTM 3 0 [.Running, .Exited, .Ready]).current_task).record_schedule_end
          7 = some stEnd ∧
      (mkTM 3 0 [.Running, .Exited, .Ready]).move_to_next_task 2 7 9 =
        some (tm', (mkTM 3 0 [.Running, .Exited, .Ready]).current_task, 2) ∧
      tm'.current_task = 2 ∧
      (tm'.tcbs 2).status = .Running ∧
      (tm'.stats 2).last_scheduled = some 9 ∧
      ((mkTM 3 0 [.Running, .Exited, .Ready]).current_task ≠ 2 →
        (tm'.tcbs (mkTM 3 0 [.Running, .Exited, .Ready]).current_task).status =
          (if ((mkTM 3 0 [.Running, .Exited, .Ready]).tcbs
              (mkTM 3 0 [.Running, .Exited, .Ready]).current_task).status
                = .Running then .Ready
           else
            ((mkTM 3 0 [.Running, .Exited, .Ready]).tcbs
              (mkTM 3 0 [.Running, .Exited, .Ready]).current_task).status)) ∧
      ((mkTM 3 0 [.Running, .Exited, .Ready]).current_task ≠ 2 →
        tm'.stats (mkTM 3 0 [.Running, .Exited, .Ready]).current_task = stEnd) ∧
      ((mkTM 3 0 [.Running, .Exited, .Ready]).current_task = 2 →
        tm'.stats 2 = stEnd.record_schedule_begin 9) ∧
      (∀ j, j ≠ 2 → j ≠ (mkTM 3 0 [.Running, .Exited, .Ready]).current_task →
        tm'.tcbs j = (mkTM 3 0 [.Running, .Exited, .Ready]).tcbs j ∧
        tm'.stats j = (mkTM 3 0 [.Running, .Exited, .Ready]).stats j) :=
  move_to_next_task_spec (mkTM 3 0 [.Running, .Exited, .Ready]) 2 7 9
    (by decide) (by simp [mkTM, TaskStat.default0])

/-- Closed form of `move_to_next_task`: a case split on the window close and
on the post-demotion status of `next_task`, with `moveResult` as the success
state. -/
lemma move_to_next_task_eq (tm : TaskManager) (next_task tEnd tBegin : Nat) :
    tm.move_to_next_task next_task tEnd tBegin =
      match (tm.stats tm.current_task).record_schedule_end tEnd with
      | none => none
      | some stEnd =>
          if ((if (tm.tcbs tm.current_task).status = .Running then
              tm.setStatus tm.current_task .Ready
            else tm).tcbs next_task).status = .Ready then
            some (moveResult tm next_task tBegin stEnd, tm.current_task,
              next_task)
          else none := by
  cases hse : (tm.stats tm.current_task).record_schedule_end tEnd with
  | none => simp only [TaskManager.move_to_next_task, demote_stats, hse]
  | some stE =>
      by_cases hnr : ((if (tm.tcbs tm.current_task).status = .Running then
          tm.setStatus tm.current_task .Ready
        else tm).tcbs next_task).status = .Ready
      · simp only [TaskManager.move_to_next_task, demote_stats, hse, hnr,
          if_true, moveResult]
      · simp only [TaskManager.move_to_next_task, demote_stats, hse, hnr,
          if_false]

/-- Inversion of a successful `move_to_next_task`: the window close
succeeded, the post-demotion status of `next_task` was Ready, and the result
is `moveResult` with the two context indices. -/
lemma move_some_inv (tm : TaskManager) (next_task tEnd tBegin : Nat)
    (tm' : TaskManager) (c n : Nat)
    (h : tm.move_to_next_task next_task tEnd tBegin = some (tm', c, n)) :
    ∃ stEnd,
      (tm.stats tm.current_task).record_schedule_end tEnd = some stEnd ∧
      ((if (tm.tcbs tm.current_task).status = .Running then
          tm.setStatus tm.current_task .Ready
        else tm).tcbs next_task).status = .Ready ∧
      tm' = moveResult tm next_task tBegin stEnd ∧
      c = tm.current_task ∧ n = next_task := by
  rw [move_to_next_task_eq] at h
  split at h
  · exact absurd h (by simp)
  · next stE hse =>
      by_cases hnr : ((if (tm.tcbs tm.current_task).status = .Running then
          tm.setStatus tm.current_task .Ready
        else tm).tcbs next_task).status = .Ready
      · rw [if_pos hnr] at h
        simp only [Option.some.injEq, Prod.mk.injEq] at h
        exact ⟨stE, hse, hnr, h.1.symm, h.2.1.symm, h.2.2.symm⟩
      · rw [if_neg hnr] at h
        exact absurd h (by simp)

/-- The status of any slot after `moveResult`. -/
lemma moveResult_status (tm : TaskManager) (next_task tBegin : Nat)
    (stEnd : TaskStat) (i : Nat) :
    ((moveResult tm next_task tBegin stEnd).tcbs i).status =
      if i = next_task then .Running
      else if i = tm.current_task ∧
          (tm.tcbs tm.current_task).status = .Running then .Ready
      else (tm.tcbs i).status := by
  by_cases h1 : i = next_task
  · subst h1
    by_cases hc : (tm.tcbs tm.current_task).status = .Running <;>
      by_cases h2 : i = tm.current_task <;>
        simp [moveResult, TaskManager.setStatus, updF, hc, h2]
  · by_cases h2 : i = tm.current_task
    · subst h2
      by_cases hc : (tm.tcbs tm.current_task).status = .Running <;>
        simp [moveResult, TaskManager.setStatus, updF, h1, hc]
    · by_cases hc : (tm.tcbs tm.current_task).status = .Running <;>
        simp [moveResult, TaskManager.setStatus, updF, h1, h2, hc]

/-- A successful `move_to_next_task` leaves an Exited slot Exited. -/
lemma move_preserves_exited (tm : TaskManager) (i next_task tEnd tBegin : Nat)
    (tm' : TaskManager) (c n : Nat)
    (hEx : (tm.tcbs i).status = .Exited)
    (hmv : tm.move_to_next_task next_task tEnd tBegin = some (tm', c, n)) :
    (tm'.tcbs i).status = .Exited := by
  obtain ⟨stEnd, hse, hnr, htm', _, _⟩ := move_some_inv _ _ _ _ _ _ _ hmv
  have hineq : i ≠ next_task := by
    intro he
    subst he
    by_cases hc : (tm.tcbs tm.current_task).status = .Running
    · by_cases he2 : i = tm.current_task
      · exact absurd (hc.symm.trans (he2 ▸ hEx)) (by decide)
      · simp [hc, TaskManager.setStatus, updF, he2, hEx] at hnr
    · simp [hc, hEx] at hnr
  subst htm'
  rw [moveResult_status]
  rw [if_neg hineq]
  by_cases h2 : i = tm.current_task
  · have hcx : ¬(tm.tcbs tm.current_task).status = .Running := by
      rw [← h2, hEx]
      decide
    rw [if_neg (by intro hand; exact hcx hand.2), hEx]
  · rw [if_neg (by intro hand; exact h2 hand.1), hEx]

/-- A successful module-level `record_syscall` changes only the current
task's stat record. -/
lemma record_syscall_some_inv (msn : Nat) (tm : TaskManager) (s : Nat)
    (tm' : TaskManager) (h : record_syscall msn tm s = some tm') :
    tm'.tcbs = tm.tcbs ∧ tm'.current_task = tm.current_task ∧
    tm'.num_app = tm.num_app ∧
    (∀ i, i ≠ tm.current_task → tm'.stats i = tm.stats i) := by
  simp only [record_syscall] at h
  split at h
  · next st hst =>
      simp only [Option.some.injEq] at h
      subst h
      exact ⟨rfl, rfl, rfl, fun i hi => by simp [updF, hi]⟩
  · exact absurd h (by simp)

/-- `find_next_task` only ever yields a Ready or Running slot. -/
lemma find_next_task_some_status (tm : TaskManager) (j : Nat)
    (h : tm.find_next_task = some (some j)) :
    (tm.tcbs j).status = .Ready ∨
      (j = tm.current_task ∧ (tm.tcbs j).status = .Running) := by
  simp only [TaskManager.find_next_task] at h
  split at h
  · exact absurd h (by simp)
  · simp only [Option.some.injEq] at h
    cases hloop : findReadyLoop tm.tcbs tm.num_app
        ((tm.current_task + 1) % tm.num_app) tm.num_app with
    | some idx =>
        rw [hloop] at h
        simp only [Option.some.injEq] at h
        subst h
        exact Or.inl (findReadyLoop_some_ready tm.tcbs tm.num_app _ _ _ hloop)
    | none =>
        rw [hloop] at h
        by_cases hrun : (tm.tcbs tm.current_task).status = .Running
        · rw [if_pos hrun] at h
          have hj := (Option.some.inj h).symm
          exact Or.inr ⟨hj, by rw [hj]; exact hrun⟩
        · rw [if_neg hrun] at h
          exact absurd h (by simp)

/-- Inversion of a `run_next_task` that performed a switch. -/
lemma run_next_task_switched_inv (tm : TaskManager) (tEnd tBegin : Nat)
    (tm' : TaskManager) (c n : Nat)
    (h : run_next_task tm tEnd tBegin = .switched tm' c n) :
    ∃ next_task, tm.find_next_task_or_exit = .task next_task ∧
      tm.move_to_next_task next_task tEnd tBegin = some (tm', c, n) := by
  simp only [run_next_task] at h
  split at h
  · exact absurd h (by simp)
  · exact absurd h (by simp)
  · next next_task hfind =>
      split at h
      · next tmx cx nx hmv =>
          refine ⟨next_task, hfind, ?_⟩
          obtain ⟨h1, h2, h3⟩ := SwitchResult.switched.inj h
          rw [hmv, h1, h2, h3]
      · exact absurd h (by simp)

/-- Setting one slot's status to Exited leaves an Exited slot Exited. -/
lemma setExited_keeps_exited (tm : TaskManager) (i : Nat)
    (hEx : (tm.tcbs i).status = .Exited) :
    ((tm.setStatus tm.current_task .Exited).tcbs i).status = .Exited := by
  by_cases he : i = tm.current_task <;>
    simp [TaskManager.setStatus, updF, he, hEx]

/-- C3: once a task's status is Exited no public operation changes it —
a successful `move_to_next_task`, `record_syscall`, or `exit_and_run_next`
leaves it Exited — and `find_next_task` never returns that task's index. -/
theorem exited_is_terminal (tm : TaskManager) (i : Nat)
    (hEx : (tm.tcbs i).status = .Exited) :
    (∀ next_task tEnd tBegin tm' c n,
      tm.move_to_next_task next_task tEnd tBegin = some (tm', c, n) →
        (tm'.tcbs i).status = .Exited) ∧
    (∀ msn s tm', record_syscall msn tm s = some tm' →
      (tm'.tcbs i).status = .Exited) ∧
    (∀ r, tm.find_next_task = some r → r ≠ some i) ∧
    (∀ tEnd tBegin tm' c n,
      exit_and_run_next tm tEnd tBegin = .switched tm' c n →
        (tm'.tcbs i).status = .Exited) := by
  refine ⟨?_, ?_, ?_, ?_⟩
  · intro next_task tEnd tBegin tm' c n hmv
    exact move_preserves_exited tm i next_task tEnd tBegin tm' c n hEx hmv
  · intro msn s tm' h
    obtain ⟨htcbs, _, _, _⟩ := record_syscall_some_inv msn tm s tm' h
    rw [htcbs]
    exact hEx
  · intro r hr hcontra
    subst hcontra
    rcases find_next_task_some_status tm i hr with hready | ⟨_, hrun⟩
    · exact absurd (hEx.symm.trans hready) (by decide)
    · exact absurd (hEx.symm.trans hrun) (by decide)
  · intro tEnd tBegin tm' c n h
    simp only [exit_and_run_next] at h
    obtain ⟨next_task, _, hmv⟩ :=
      run_next_task_switched_inv _ tEnd tBegin tm' c n h
    exact move_preserves_exited _ i next_task tEnd tBegin tm' c n
      (setExited_keeps_exited tm i hEx) hmv

/-- Witness for C3: task 1 Exited in a three-task state. -/
theorem exited_is_terminal_witness :
    ((mkTM 3 0 [.Running, .Exited, .Ready]).tcbs 1).status = .Exited ∧
    (∀ r, (mkTM 3 0 [.Running, .Exited, .Ready]).find_next_task = some r →
      r ≠ some 1) :=
  ⟨by decide, (exited_is_terminal (mkTM 3 0 [.Running, .Exited, .Ready]) 1
    (by decide)).2.2.1⟩

/-- `record_schedule_begin` preserves well-formedness at the new reading. -/
lemma record_schedule_begin_wf (st : TaskStat) (t t1 : Nat)
    (hwf : StatWF st t) (h : t ≤ t1) :
    StatWF (st.record_schedule_begin t1) t1 := by
  obtain ⟨hl, hfl, hf⟩ := hwf
  cases hls : st.last_scheduled with
  | none =>
      refine ⟨?_, ?_, ?_⟩ <;>
        simp_all [TaskStat.record_schedule_begin, hls]
  | some l0 =>
      refine ⟨?_, ?_, ?_⟩ <;>
        simp only [TaskStat.record_schedule_begin, hls]
      · intro l hl1
        exact (Option.some.inj hl1).ge
      · intro f l hf1 hl1
        exact le_trans (hf f hf1) (le_trans h (Option.some.inj hl1).le)
      · intro f hf1
        exact le_trans (hf f hf1) h

/-- `record_schedule_begin` never changes `cpu_clocks`. -/
lemma record_schedule_begin_cpu (st : TaskStat) (now : Nat) :
    (st.record_schedule_begin now).cpu_clocks = st.cpu_clocks := by
  cases h : st.last_scheduled <;> simp [TaskStat.record_schedule_begin, h]

/-- A successful `record_schedule_end` preserves well-formedness and never
decreases `cpu_clocks`. -/
lemma record_schedule_end_wf (st : TaskStat) (t t1 : Nat) (st' : TaskStat)
    (hwf : StatWF st t) (h : t ≤ t1)
    (hend : st.record_schedule_end t1 = some st') :
    StatWF st' t1 ∧ st.cpu_clocks ≤ st'.cpu_clocks := by
  obtain ⟨hl, hfl, hf⟩ := hwf
  cases hls : st.last_scheduled with
  | none =>
      simp only [TaskStat.record_schedule_end, hls, Option.some.injEq] at hend
      subst hend
      refine ⟨⟨?_, hfl, ?_⟩, le_refl _⟩
      · intro l hlx
        exact absurd (hls ▸ hlx) (by simp)
      · intro f hfx
        exact le_trans (hf f hfx) h
  | some l0 =>
      have hle : l0 ≤ t1 := le_trans (hl l0 hls) h
      simp only [TaskStat.record_schedule_end, hls, if_pos hle,
        Option.some.injEq] at hend
      subst hend
      refine ⟨⟨?_, ?_, ?_⟩, Nat.le_add_right _ _⟩
      · intro l hlx
        simp only [hls, Option.some.injEq] at hlx
        exact hlx ▸ hle
      · intro f l hfx hlx
        exact hfl f l hfx (by rw [hls]; exact hlx)
      · intro f hfx
        exact le_trans (hf f hfx) h

/-- Along any clock-monotone trace of window operations that completes
without a panic, `cpu_clocks` never decreases and the final record is
well-formed at some reading. -/
lemma runStatOps_wf (ops : List StatOp) :
    ∀ st t st', StatWF st t → TimesMono t ops →
      runStatOps st ops = some st' →
      st.cpu_clocks ≤ st'.cpu_clocks ∧ ∃ t', StatWF st' t' := by
  induction ops with
  | nil =>
      intro st t st' hwf _ hrun
      simp only [runStatOps, Option.some.injEq] at hrun
      subst hrun
      exact ⟨le_refl _, t, hwf⟩
  | cons op ops ih =>
      intro st t st' hwf hmono hrun
      obtain ⟨hle, hmono'⟩ := hmono
      cases op with
      | beginOp t1 =>
          simp only [runStatOps, applyStatOp] at hrun
          have hwf1 := record_schedule_begin_wf st t t1 hwf hle
          have hrec := ih _ t1 st' hwf1 hmono' hrun
          exact ⟨record_schedule_begin_cpu st t1 ▸ hrec.1, hrec.2⟩
      | endOp t1 =>
          simp only [runStatOps, applyStatOp] at hrun
          cases hend : st.record_schedule_end t1 with
          | none =>
              rw [hend] at hrun
              exact absurd hrun (by simp)
          | some st1 =>
              rw [hend] at hrun
              simp only [] at hrun
              obtain ⟨hwf1, hcpu⟩ :=
                record_schedule_end_wf st t t1 st1 hwf hle hend
              have hrec := ih _ t1 st' hwf1 hmono' hrun
              exact ⟨le_trans hcpu hrec.1, hrec.2⟩

/-- C7: assuming the platform clock is non-decreasing, `cpu_clocks` is
unchanged by `record_schedule_begin` and never decreased by a successful
`record_schedule_end`; and along any clock-monotone trace of window
operations, `cpu_clocks` never decreases and `first_scheduled ≤
last_scheduled` holds whenever both are set. -/
theorem stats_monotone :
    (∀ st now, (TaskStat.record_schedule_begin st now).cpu_clocks =
      st.cpu_clocks) ∧
    (∀ st now st', TaskStat.record_schedule_end st now = some st' →
      st.cpu_clocks ≤ st'.cpu_clocks) ∧
    (∀ ops st t st', StatWF st t → TimesMono t ops →
      runStatOps st ops = some st' →
      st.cpu_clocks ≤ st'.cpu_clocks ∧
      ∀ f l, st'.first_scheduled = some f → st'.last_scheduled = some l →
        f ≤ l) := by
  refine ⟨record_schedule_begin_cpu, ?_, ?_⟩
  · intro st now st' hend
    cases hls : st.last_scheduled with
    | none =>
        simp only [TaskStat.record_schedule_end, hls,
          Option.some.injEq] at hend
        subst hend
        exact le_refl _
    | some l0 =>
        simp only [TaskStat.record_schedule_end, hls] at hend
        by_cases hle : l0 ≤ now
        · rw [if_pos hle] at hend
          simp only [Option.some.injEq] at hend
          subst hend
          exact Nat.le_add_right _ _
        · rw [if_neg hle] at hend
          exact absurd hend (by simp)
  · intro ops st t st' hwf hmono hrun
    obtain ⟨hcpu, t', hwf'⟩ := runStatOps_wf ops st t st' hwf hmono hrun
    exact ⟨hcpu, hwf'.2.1⟩

/-- Witness for C7 on the concrete trace [open at 3, close at 5]. -/
theorem stats_monotone_witness :
    TaskStat.default0.cpu_clocks ≤ stC7.cpu_clocks ∧
    (∀ f l, stC7.first_scheduled = some f → stC7.last_scheduled = some l →
      f ≤ l) :=
  stats_monotone.2.2 [StatOp.beginOp 3, StatOp.endOp 5] TaskStat.default0 0
    stC7 (by simp [StatWF, TaskStat.default0])
    (by exact ⟨by decide, by decide, trivial⟩) rfl

/-- One successful module-level `record_syscall`: bumps exactly the current
task's counter for `s` and nothing else. -/
lemma record_syscall_step (msn : Nat) (tm : TaskManager) (s : Nat)
    (hs : s < msn) :
    ∃ tm', record_syscall msn tm s = some tm' ∧
      tm'.current_task = tm.current_task ∧ tm'.tcbs = tm.tcbs ∧
      tm'.num_app = tm.num_app ∧
      (∀ i, i ≠ tm.current_task → tm'.stats i = tm.stats i) ∧
      (∀ s', s' ≠ s → (tm'.stats tm.current_task).syscall_times s' =
        (tm.stats tm.current_task).syscall_times s') ∧
      (tm'.stats tm.current_task).syscall_times s =
        (tm.stats tm.current_task).syscall_times s + 1 := by
  have hst : (tm.stats tm.current_task).record_syscall msn s = some
      { tm.stats tm.current_task with
        syscall_times := fun j =>
          if j = s then (tm.stats tm.current_task).syscall_times s + 1
          else (tm.stats tm.current_task).syscall_times j } := by
    simp [TaskStat.record_syscall, hs]
  have heq : record_syscall msn tm s = some
      { tm with
        stats := updF tm.stats tm.current_task
          { tm.stats tm.current_task with
            syscall_times := fun j =>
              if j = s then (tm.stats tm.current_task).syscall_times s + 1
              else (tm.stats tm.current_task).syscall_times j } } := by
    simp only [record_syscall, hst]
  refine ⟨_, heq, rfl, rfl, rfl, ?_, ?_, ?_⟩
  · intro i hi
    simp [updF, hi]
  · intro s' hs'
    simp [updF, hs']
  · simp [updF]

/-- `k` successful invocations of `record_syscall` with in-range number `s`
add exactly `k` to the current task's counter for `s` and change nothing
else. -/
lemma recordSyscallN_spec (msn s : Nat) (hs : s < msn) :
    ∀ k tm, ∃ tm', recordSyscallN msn tm s k = some tm' ∧
      tm'.current_task = tm.current_task ∧ tm'.tcbs = tm.tcbs ∧
      tm'.num_app = tm.num_app ∧
      (∀ i, i ≠ tm.current_task → tm'.stats i = tm.stats i) ∧
      (∀ s', s' ≠ s → (tm'.stats tm.current_task).syscall_times s' =
        (tm.stats tm.current_task).syscall_times s') ∧
      (tm'.stats tm.current_task).syscall_times s =
        (tm.stats tm.current_task).syscall_times s + k := by
  intro k
  induction k with
  | zero =>
      intro tm
      exact ⟨tm, rfl, rfl, rfl, rfl, fun _ _ => rfl, fun _ _ => rfl, rfl⟩
  | succ k ih =>
      intro tm
      obtain ⟨tm1, h1, hcur1, htcbs1, hnum1, hstats1, hother1, hcount1⟩ :=
        record_syscall_step msn tm s hs
      obtain ⟨tm', h2, hcur2, htcbs2, hnum2, hstats2, hother2, hcount2⟩ :=
        ih tm1
      rw [hcur1] at hcur2 hstats2 hother2 hcount2
      refine ⟨tm', ?_, hcur2, htcbs2.trans htcbs1, hnum2.trans hnum1,
        ?_, ?_, ?_⟩
      · simp only [recordSyscallN, h1]
        exact h2
      · intro i hi
        exact (hstats2 i hi).trans (hstats1 i hi)
      · intro s' hs'
        exact (hother2 s' hs').trans (hother1 s' hs')
      · rw [hcount2, hcount1]
        omega

/-- C8: for an in-range syscall number `s`, `k` invocations of
`record_syscall` while the task is current make that task's counter for `s`
read `k` (from its zero-initialised value), leaving every other counter of
that task, all stats of every other task, the status array and the current
index unchanged. -/
theorem syscall_counting (msn : Nat) (tm : TaskManager) (s k : Nat)
    (hs : s < msn)
    (hz : (tm.stats tm.current_task).syscall_times s = 0) :
    ∃ tm', recordSyscallN msn tm s k = some tm' ∧
      (tm'.stats tm.current_task).syscall_times s = k ∧
      (∀ s', s' ≠ s → (tm'.stats tm.current_task).syscall_times s' =
        (tm.stats tm.current_task).syscall_times s') ∧
      (∀ i, i ≠ tm.current_task → tm'.stats i = tm.stats i) ∧
      tm'.tcbs = tm.tcbs ∧ tm'.current_task = tm.current_task := by
  obtain ⟨tm', h, hcur, htcbs, _, hstats, hother, hcount⟩ :=
    recordSyscallN_spec msn s hs k tm
  exact ⟨tm', h, by rw [hcount, hz]; exact Nat.zero_add k, hother, hstats,
    htcbs, hcur⟩

/-- Witness for C8: four calls with syscall number 3, tracked range 5. -/
theorem syscall_counting_witness :
    ∃ tm', recordSyscallN 5 (mkTM 2 0 [.Running, .Ready]) 3 4 = some tm' ∧
      (tm'.stats (mkTM 2 0 [.Running, .Ready]).current_task).syscall_times 3
        = 4 ∧
      (∀ s', s' ≠ 3 →
        (tm'.stats (mkTM 2 0 [.Running, .Ready]).current_task).syscall_times
          s' =
        ((mkTM 2 0 [.Running, .Ready]).stats
          (mkTM 2 0 [.Running, .Ready]).current_task).syscall_times s') ∧
      (∀ i, i ≠ (mkTM 2 0 [.Running, .Ready]).current_task →
        tm'.stats i = (mkTM 2 0 [.Running, .Ready]).stats i) ∧
      tm'.tcbs = (mkTM 2 0 [.Running, .Ready]).tcbs ∧
      tm'.current_task = (mkTM 2 0 [.Running, .Ready]).current_task :=
  syscall_counting 5 (mkTM 2 0 [.Running, .Ready]) 3 4 (by decide) (by decide)

/-- Inversion of a successful `load_task`. -/
lemma load_task_some_inv (tm : TaskManager) (task_id : Nat)
    (tm' : TaskManager) (h : tm.load_task task_id = some tm') :
    tm' = tm.setStatus task_id .Ready := by
  simp only [TaskManager.load_task] at h
  split at h
  · exact (Option.some.inj h).symm
  · exact absurd h (by simp)

/-- Loading never produces a Running slot. -/
lemma foldl_load_no_running (l : List Nat) :
    ∀ tm tm', (∀ i, (tm.tcbs i).status ≠ .Running) →
      l.foldlM TaskManager.load_task tm = some tm' →
      ∀ i, (tm'.tcbs i).status ≠ .Running := by
  induction l with
  | nil =>
      intro tm tm' hnr h
      simp only [List.foldlM_nil, Option.pure_def, Option.some.injEq] at h
      exact h ▸ hnr
  | cons a l ih =>
      intro tm tm' hnr h
      rw [List.foldlM_cons] at h
      cases hx : tm.load_task a with
      | none => rw [hx] at h; exact absurd h (by simp)
      | some tm1 =>
          rw [hx] at h
          simp only [Option.bind_eq_bind, Option.bind_some] at h
          have h1 : ∀ i, (tm1.tcbs i).status ≠ .Running := by
            rw [load_task_some_inv tm a tm1 hx]
            intro i
            by_cases hi : i = a
            · simp [TaskManager.setStatus, updF, hi]
            · simp only [TaskManager.setStatus, updF]
              rw [if_neg hi]
              exact hnr i
          exact ih tm1 tm' h1 h

/-- A fresh manager has no Running slot. -/
lemma new_no_running (num_app : Nat) (app_starts kstack_sp : Nat → Nat)
    (start_task_addr : Nat) (tm0 : TaskManager)
    (h : TaskManager.new num_app app_starts kstack_sp start_task_addr =
      some tm0) :
    ∀ i, (tm0.tcbs i).status ≠ .Running := by
  simp only [TaskManager.new] at h
  refine foldl_load_no_running (List.range num_app) _ tm0 ?_ h
  intro i
  by_cases hi : i < min num_app MAX_TASK_NUM <;> simp [hi]

/-- The current index after `moveResult`. -/
lemma moveResult_current (tm : TaskManager) (next_task tBegin : Nat)
    (stEnd : TaskStat) :
    (moveResult tm next_task tBegin stEnd).current_task = next_task := rfl

/-- A successful `move_to_next_task` preserves the invariant. -/
lemma move_preserves_RIC (tm tm' : TaskManager)
    (next_task tEnd tBegin c n : Nat)
    (inv : RunningIsCurrent tm)
    (hmv : tm.move_to_next_task next_task tEnd tBegin = some (tm', c, n)) :
    RunningIsCurrent tm' := by
  obtain ⟨stEnd, _, _, htm', _, _⟩ := move_some_inv _ _ _ _ _ _ _ hmv
  subst htm'
  intro i hi
  rw [moveResult_status] at hi
  rw [moveResult_current]
  by_cases h1 : i = next_task
  · exact h1
  · rw [if_neg h1] at hi
    by_cases h2 : i = tm.current_task ∧
        (tm.tcbs tm.current_task).status = .Running
    · rw [if_pos h2] at hi
      exact absurd hi (by decide)
    · rw [if_neg h2] at hi
      have hic := inv i hi
      exact absurd ⟨hic, hic ▸ hi⟩ h2

/-- Marking the current task Exited leaves no Running slot under the
invariant. -/
lemma exit_mark_RIC (tm : TaskManager) (inv : RunningIsCurrent tm) :
    RunningIsCurrent (tm.setStatus tm.current_task .Exited) := by
  intro i hi
  by_cases he : i = tm.current_task
  · exact he
  · simp only [TaskManager.setStatus, updF] at hi
    rw [if_neg he] at hi
    exact inv i hi

/-- Inversion of a `run_first_task` that switched. -/
lemma run_first_task_switch_inv (tm : TaskManager) (tEnd tBegin : Nat)
    (tm' : TaskManager) (n : Nat)
    (h : run_first_task tm tEnd tBegin = .firstSwitch tm' n) :
    0 < tm.num_app ∧
      ∃ c, tm.move_to_next_task 0 tEnd tBegin = some (tm', c, n) := by
  simp only [run_first_task] at h
  by_cases h0 : 0 < tm.num_app
  · rw [if_pos h0] at h
    refine ⟨h0, ?_⟩
    cases hmv : tm.move_to_next_task 0 tEnd tBegin with
    | none => rw [hmv] at h; exact absurd h (by simp)
    | some r =>
        obtain ⟨tmx, cx, nx⟩ := r
        rw [hmv] at h
        obtain ⟨h1, h2⟩ := SwitchResult.firstSwitch.inj h
        exact ⟨cx, by rw [h1, h2]⟩
  · rw [if_neg h0] at h
    exact absurd h (by simp)

/-- Every public step preserves the invariant. -/
lemma step_preserves_RIC (tm tm' : TaskManager) (h : Step tm tm')
    (inv : RunningIsCurrent tm) : RunningIsCurrent tm' := by
  cases h with
  | move next_task tEnd tBegin c n hmv =>
      exact move_preserves_RIC tm tm' next_task tEnd tBegin c n inv hmv
  | syscall msn s hs =>
      obtain ⟨htcbs, hcur, _, _⟩ := record_syscall_some_inv msn tm s tm' hs
      intro i hi
      rw [htcbs] at hi
      rw [hcur]
      exact inv i hi
  | exit tEnd tBegin c n he =>
      simp only [exit_and_run_next] at he
      obtain ⟨next_task, _, hmv⟩ :=
        run_next_task_switched_inv _ tEnd tBegin tm' c n he
      exact move_preserves_RIC _ tm' next_task tEnd tBegin c n
        (exit_mark_RIC tm inv) hmv
  | load task_id hl =>
      rw [load_task_some_inv tm task_id tm' hl]
      intro i hi
      by_cases he : i = task_id
      · exact absurd hi (by simp [he, TaskManager.setStatus, updF])
      · simp only [TaskManager.setStatus, updF] at hi
        rw [if_neg he] at hi
        exact inv i hi
  | runNext tEnd tBegin c n hr =>
      obtain ⟨next_task, _, hmv⟩ :=
        run_next_task_switched_inv _ tEnd tBegin tm' c n hr
      exact move_preserves_RIC tm tm' next_task tEnd tBegin c n inv hmv
  | runFirst tEnd tBegin n hr =>
      obtain ⟨_, c, hmv⟩ := run_first_task_switch_inv tm tEnd tBegin tm' n hr
      exact move_preserves_RIC tm tm' 0 tEnd tBegin c n inv hmv

/-- Every reachable state satisfies the invariant. -/
lemma reachable_RIC (tm : TaskManager) (h : Reachable tm) :
    RunningIsCurrent tm := by
  obtain ⟨num_app, app_starts, kstack_sp, start_task_addr, tm0, hnew,
    hsteps⟩ := h
  have h0 : RunningIsCurrent tm0 := fun i hi =>
    absurd hi (new_no_running num_app app_starts kstack_sp start_task_addr
      tm0 hnew i)
  induction hsteps with
  | refl => exact h0
  | tail _ hstep ih => exact step_preserves_RIC _ _ hstep ih

/-- C4: in every state reachable from a boot state by the public operations,
at most one task slot is Running. -/
theorem single_running_invariant (tm : TaskManager) (h : Reachable tm) :
    ∀ i j, (tm.tcbs i).status = .Running → (tm.tcbs j).status = .Running →
      i = j := by
  intro i j hi hj
  have hric := reachable_RIC tm h
  rw [hric i hi, hric j hj]

/-- Witness for C4 at the concrete two-task boot state. -/
theorem single_running_invariant_witness :
    ∃ tm, TaskManager.new 2 (fun _ => 0) (fun _ => 0) 0 = some tm ∧
      (∀ i j, (tm.tcbs i).status = .Running →
        (tm.tcbs j).status = .Running → i = j) := by
  cases hnew : TaskManager.new 2 (fun _ => 0) (fun _ => 0) 0 with
  | none =>
      have hs : (TaskManager.new 2 (fun _ => 0) (fun _ => 0) 0).isSome =
        true := rfl
      rw [hnew] at hs
      exact absurd hs (by simp)
  | some tm =>
      exact ⟨tm, rfl, single_running_invariant tm
        ⟨2, fun _ => 0, fun _ => 0, 0, tm, hnew, Relation.ReflTransGen.refl⟩⟩

/-- C9 counterexample: a Ready task exists, yet `run_first_task` panics on
the `assert!` inside `move_to_next_task(0)` instead of transitioning task 0
to Running (or powering off): the code's guard is `num_app > 0`, not
"at least one Ready task", and the task switched to is always slot 0. -/
theorem run_first_task_panics_despite_ready :
    0 < tmC9.num_app ∧ (tmC9.tcbs 1).status = .Ready ∧
    run_first_task tmC9 0 0 = .fault :=
  ⟨by decide, by decide, rfl⟩

/-- C9 amended: `run_first_task` reports completion and powers off exactly
when `num_app = 0` (no embedded task), regardless of Ready slots; when
`num_app > 0` and slot 0 is Ready (the boot situation), it marks task 0
Running, opens its stats window, and performs the one-way switch from a
throwaway context into task 0's context (the `firstSwitch` outcome; the
timer programming and the non-return are part of that outcome). -/
theorem run_first_task_spec (tm : TaskManager) (tEnd tBegin : Nat)
    (hclock : ∀ l, (tm.stats tm.current_task).last_scheduled = some l →
      l ≤ tEnd) :
    (tm.num_app = 0 → run_first_task tm tEnd tBegin = .poweroff) ∧
    (0 < tm.num_app → (tm.tcbs 0).status = .Ready →
      ∃ tm', run_first_task tm tEnd tBegin = .firstSwitch tm' 0 ∧
        tm'.current_task = 0 ∧ (tm'.tcbs 0).status = .Running ∧
        (tm'.stats 0).last_scheduled = some tBegin) := by
  constructor
  · intro h0
    simp [run_first_task, h0]
  · intro h0 hready
    obtain ⟨tm', stEnd, hse, hmv, hcur, hst, hlast, _, _, _, _⟩ :=
      move_spec_aux tm 0 tEnd tBegin hready hclock
    refine ⟨tm', ?_, hcur, hst, hlast⟩
    simp only [run_first_task, if_pos h0, hmv]

/-- Witness for the amended C9: a fresh-boot-like state with both slots
Ready. -/
theorem run_first_task_spec_witness :
    ((mkTM 2 0 [.Ready, .Ready]).num_app = 0 →
      run_first_task (mkTM 2 0 [.Ready, .Ready]) 0 4 = .poweroff) ∧
    (0 < (mkTM 2 0 [.Ready, .Ready]).num_app →
      ((mkTM 2 0 [.Ready, .Ready]).tcbs 0).status = .Ready →
      ∃ tm', run_first_task (mkTM 2 0 [.Ready, .Ready]) 0 4 =
          .firstSwitch tm' 0 ∧
        tm'.current_task = 0 ∧ (tm'.tcbs 0).status = .Running ∧
        (tm'.stats 0).last_scheduled = some 4) :=
  run_first_task_spec (mkTM 2 0 [.Ready, .Ready]) 0 4
    (by simp [mkTM, TaskStat.default0])

end Os3
